import Mathlib

/-!
Verification of the Forja workout player core against its implementation.

Shallow embedding of:
* `buildSteps` and its helpers (src/pages/Workout/WorkoutPlayer.tsx),
* the timing-engine handlers `handleStart` / `handlePause` / `handleResume`
  and the tick computations (same file),
* `loadWorkoutSession` / `saveWorkoutSession` / `isSessionStale` /
  `calculateStepRemaining` / `calculateTotalElapsed`
  (src/lib/workoutSessionStorage.ts),
* `beepOnce` / `resetBeepGuard` (src/lib/workoutAudio.ts),
* `generateLabel` (inside `handleFinish` in WorkoutPlayer.tsx).

JavaScript `number` values that the code treats as integers (millisecond
timestamps from `Date.now()`, seconds, counts, indices) are modelled as `Int`.
`Math.floor (x / 1000)` is Lean's `x / 1000` on `Int` (Euclidean division,
which is floor division for the positive literal divisor), and
`Math.ceil (x / 1000)` is `-((-x) / 1000)`.
Nullable fields (`number | null`, optional object fields) are `Option _`;
JavaScript truthiness of such fields is modelled explicitly.
-/

namespace Forja

/-! ## Data model: blocks and steps (WorkoutPlayer.tsx) -/

inductive BlockType where
  | WARMUP | STANDARD | FINISHER | CARDIO | REGEN
deriving DecidableEq, Repr

inductive StepKind where
  | COUNTDOWN | WORK | REST
deriving DecidableEq, Repr

/-- `Step` from WorkoutPlayer.tsx; optional fields are `Option`. -/
structure Step where
  stepIndex : Int
  kind : StepKind
  blockType : BlockType
  exerciseId : Option String
  exerciseName : String
  durationSec : Int
  setNumber : Option Int
  totalSets : Option Int
  reps : Option Int
  isLastSetOfExercise : Option Bool
deriving DecidableEq, Repr

/-- `RoutineBlock` from WorkoutPlayer.tsx.  The nested
`exercise?: { name, ... }` object is represented by the name it contributes
(`exercise_name = exercise?.name`); no other part of it is read. -/
structure RoutineBlock where
  id : String
  order_index : Int
  block_type : BlockType
  exercise_id : Option String
  sets : Option Int
  reps : Option Int
  seconds_per_rep : Option Int
  work_seconds : Option Int
  rest_seconds : Option Int
  exercise_name : Option String
deriving DecidableEq, Repr

def SECONDS_PER_REP : Int := 2
def COUNTDOWN_BETWEEN_EXERCISES : Int := 3

/-- JavaScript `v || d` for a nullable number `v`: `null` and `0` are falsy. -/
def jsOrInt (v : Option Int) (d : Int) : Int :=
  match v with
  | none => d
  | some n => if n = 0 then d else n

/-- `const sets = block.sets || 1` -/
def blockSets (b : RoutineBlock) : Int := jsOrInt b.sets 1

/-- `const reps = block.reps || 0` -/
def blockReps (b : RoutineBlock) : Int := jsOrInt b.reps 0

/-- `const restSec = block.rest_seconds || 60` -/
def blockRestSec (b : RoutineBlock) : Int := jsOrInt b.rest_seconds 60

/-- The `else` branches of the `workDuration` computation:
`reps * SECONDS_PER_REP` when `reps > 0`, else the 30s fallback. -/
def blockWorkFallback (b : RoutineBlock) : Int :=
  if blockReps b > 0 then blockReps b * SECONDS_PER_REP else 30

/-- `if (block.work_seconds) { workDuration = block.work_seconds } else ...`;
`work_seconds` equal to `null` or `0` is falsy. -/
def blockWorkDuration (b : RoutineBlock) : Int :=
  match b.work_seconds with
  | some w => if w = 0 then blockWorkFallback b else w
  | none => blockWorkFallback b

/-- `const exerciseName = block.exercise?.name || "Ejercicio"` -/
def blockExerciseName (b : RoutineBlock) : String :=
  match b.exercise_name with
  | some s => if s = "" then "Ejercicio" else s
  | none => "Ejercicio"

/-- The COUNTDOWN step pushed for block `b` (stepIndex assigned later). -/
def countdownStep (b : RoutineBlock) : Step :=
  { stepIndex := 0
    kind := .COUNTDOWN
    blockType := b.block_type
    exerciseId := b.exercise_id
    exerciseName := blockExerciseName b
    durationSec := COUNTDOWN_BETWEEN_EXERCISES
    setNumber := none
    totalSets := none
    reps := none
    isLastSetOfExercise := none }

/-- The WORK step pushed for set `setNum` of block `b`. -/
def workStep (b : RoutineBlock) (setNum : Int) : Step :=
  { stepIndex := 0
    kind := .WORK
    blockType := b.block_type
    exerciseId := b.exercise_id
    exerciseName := blockExerciseName b
    durationSec := blockWorkDuration b
    setNumber := some setNum
    totalSets := some (blockSets b)
    reps := if blockReps b > 0 then some (blockReps b) else none
    isLastSetOfExercise := some (decide (setNum = blockSets b)) }

/-- The REST step pushed for block `b`. -/
def restStep (b : RoutineBlock) : Step :=
  { stepIndex := 0
    kind := .REST
    blockType := b.block_type
    exerciseId := b.exercise_id
    exerciseName := blockExerciseName b
    durationSec := blockRestSec b
    setNumber := none
    totalSets := none
    reps := none
    isLastSetOfExercise := none }

/-- Body of one iteration of `for (let setNum = 1; setNum <= sets; setNum++)`.
`next` is `activeBlocks[blockIdx + 1]` when the block is not the last one
(`isLastBlock` holds exactly when `next = none`). -/
def perSetSteps (b : RoutineBlock) (setNum : Int) (next : Option RoutineBlock) :
    List Step :=
  let isLastSet := setNum = blockSets b
  [workStep b setNum]
    ++ (if ¬isLastSet ∧ blockRestSec b > 0 then [restStep b] else [])
    ++ (if isLastSet then
          match next with
          | some nb =>
              (if blockRestSec b > 0 then [restStep b] else [])
                ++ [countdownStep nb]
          | none => []
        else [])

/-- The set loop of one block, with `n` iterations remaining and current
counter value `setNum`; entered with `n = (blockSets b).toNat` and
`setNum = 1`, matching `for (setNum = 1; setNum <= sets; ...)`. -/
def setLoopSteps (b : RoutineBlock) (next : Option RoutineBlock) :
    Nat → Int → List Step
  | 0, _ => []
  | n + 1, setNum => perSetSteps b setNum next ++ setLoopSteps b next n (setNum + 1)

/-- All steps contributed by one block's set loop. -/
def blockSteps (b : RoutineBlock) (next : Option RoutineBlock) : List Step :=
  setLoopSteps b next (blockSets b).toNat 1

/-- The steps of the whole `for (blockIdx ...)` loop except the initial
first-block COUNTDOWN push. -/
def blocksSteps : List RoutineBlock → List Step
  | [] => []
  | b :: rest => blockSteps b rest.head? ++ blocksSteps rest

/-- `skipWarmup ? blocks.filter(b => b.block_type !== "WARMUP") : blocks` -/
def activeBlocksOf (blocks : List RoutineBlock) (skipWarmup : Bool) :
    List RoutineBlock :=
  if skipWarmup then blocks.filter (fun b => b.block_type ≠ BlockType.WARMUP)
  else blocks

/-- `stepIndex++` assigns consecutive indices in push order. -/
def reindexFrom (i : Int) : List Step → List Step
  | [] => []
  | s :: rest => { s with stepIndex := i } :: reindexFrom (i + 1) rest

/-- `buildSteps(blocks, skipWarmup)` from WorkoutPlayer.tsx. -/
def buildSteps (blocks : List RoutineBlock) (skipWarmup : Bool) : List Step :=
  match activeBlocksOf blocks skipWarmup with
  | [] => []
  | b :: rest => reindexFrom 0 (countdownStep b :: blocksSteps (b :: rest))

/-- `steps.reduce((acc, s) => acc + s.durationSec, 0)` (READY screen). -/
def totalDurationSec (steps : List Step) : Int :=
  steps.foldl (fun acc s => acc + s.durationSec) 0

/-! ## Concrete scenario for C1 -/

/-- The single STANDARD block of the spec's concrete scenario:
sets = 3, reps = 10, rest = 60 s, no fixed work duration, no warmup. -/
def scenarioBlock : RoutineBlock :=
  { id := "b1"
    order_index := 0
    block_type := .STANDARD
    exercise_id := some "ex1"
    sets := some 3
    reps := some 10
    seconds_per_rep := none
    work_seconds := none
    rest_seconds := some 60
    exercise_name := some "Sentadillas" }

/-- C1: for a single STANDARD block with sets = 3, reps = 10,
rest_seconds = 60, no work_seconds and no WARMUP block, `buildSteps`
(with either `skipWarmup` value) returns exactly COUNTDOWN(3s),
WORK(set 1, 20s), REST(60s), WORK(set 2, 20s), REST(60s), WORK(set 3, 20s),
six steps whose durations sum to 183 seconds. -/
theorem buildSteps_standard_scenario (skip : Bool) :
    buildSteps [scenarioBlock] skip =
      [ { stepIndex := 0, kind := .COUNTDOWN, blockType := .STANDARD,
          exerciseId := some "ex1", exerciseName := "Sentadillas",
          durationSec := 3, setNumber := none, totalSets := none,
          reps := none, isLastSetOfExercise := none },
        { stepIndex := 1, kind := .WORK, blockType := .STANDARD,
          exerciseId := some "ex1", exerciseName := "Sentadillas",
          durationSec := 20, setNumber := some 1, totalSets := some 3,
          reps := some 10, isLastSetOfExercise := some false },
        { stepIndex := 2, kind := .REST, blockType := .STANDARD,
          exerciseId := some "ex1", exerciseName := "Sentadillas",
          durationSec := 60, setNumber := none, totalSets := none,
          reps := none, isLastSetOfExercise := none },
        { stepIndex := 3, kind := .WORK, blockType := .STANDARD,
          exerciseId := some "ex1", exerciseName := "Sentadillas",
          durationSec := 20, setNumber := some 2, totalSets := some 3,
          reps := some 10, isLastSetOfExercise := some false },
        { stepIndex := 4, kind := .REST, blockType := .STANDARD,
          exerciseId := some "ex1", exerciseName := "Sentadillas",
          durationSec := 60, setNumber := none, totalSets := none,
          reps := none, isLastSetOfExercise := none },
        { stepIndex := 5, kind := .WORK, blockType := .STANDARD,
          exerciseId := some "ex1", exerciseName := "Sentadillas",
          durationSec := 20, setNumber := some 3, totalSets := some 3,
          reps := some 10, isLastSetOfExercise := some true } ]
    ∧ (buildSteps [scenarioBlock] skip).length = 6
    ∧ totalDurationSec (buildSteps [scenarioBlock] skip) = 183 := by
  cases skip <;> exact ⟨by decide, by decide, by decide⟩

/-! ## Beep guard (workoutAudio.ts)

Module state is the single mutable variable `lastBeepKey : string`, initially
`""`.  `beepOnce` is modelled as a state transformer that also reports whether
the effect `beepFn` was invoked. -/

/-- `resetBeepGuard()` sets `lastBeepKey = ""`. -/
def resetBeepGuard : String := ""

/-- `beepOnce(key, beepFn)`: returns (effect invoked?, new `lastBeepKey`). -/
def beepOnce (key : String) (lastBeepKey : String) : Bool × String :=
  if key = lastBeepKey then (false, lastBeepKey) else (true, key)

/-- Run a sequence of `beepOnce` calls from guard state `last`, producing the
trace of `(key, effect invoked?)` pairs and the final guard state. -/
def runBeepOnce : List String → String → List (String × Bool) × String
  | [], last => ([], last)
  | k :: ks, last =>
      let r := beepOnce k last
      let rest := runBeepOnce ks r.2
      ((k, r.1) :: rest.1, rest.2)

/-- How many times the effect of key `k` was invoked in a trace. -/
def fireCount (tr : List (String × Bool)) (k : String) : Nat :=
  (tr.filter (fun p => p.1 = k && p.2)).length

/-- No call whose key equals the immediately preceding call's key invokes its
effect. -/
def noAdjacentRefire : List (String × Bool) → Bool
  | [] => true
  | [_] => true
  | a :: b :: rest =>
      (if a.1 = b.1 then b.2 = false else true) && noAdjacentRefire (b :: rest)

/-! ## Timing engine (WorkoutPlayer.tsx refs and handlers) -/

/-- The five timing refs of WorkoutPlayer.tsx. -/
structure TimingState where
  workoutStartedAtMs : Int
  totalAccumulatedMs : Int
  stepStartedAtMs : Int
  stepOriginalDurationSec : Int
  stepAccumulatedMs : Int
deriving DecidableEq, Repr

/-- The timing-ref writes of `handleStart` at time `now`:
both started-at refs are set to `now`, both accumulators to 0, and the step
duration to `steps[0].durationSec` when `steps` is non-empty. -/
def handleStart (steps : List Step) (s : TimingState) (now : Int) : TimingState :=
  { workoutStartedAtMs := now
    stepStartedAtMs := now
    totalAccumulatedMs := 0
    stepAccumulatedMs := 0
    stepOriginalDurationSec :=
      match steps.head? with
      | some st => st.durationSec
      | none => s.stepOriginalDurationSec }

/-- The timing-ref writes of `handlePause` at time `now`. -/
def handlePause (s : TimingState) (now : Int) : TimingState :=
  { s with
    totalAccumulatedMs := s.totalAccumulatedMs + (now - s.workoutStartedAtMs)
    stepAccumulatedMs := s.stepAccumulatedMs + (now - s.stepStartedAtMs) }

/-- The timing-ref writes of `handleResume` at time `now`. -/
def handleResume (s : TimingState) (now : Int) : TimingState :=
  { s with
    workoutStartedAtMs := now
    stepStartedAtMs := now }

/-- `Math.ceil (x / b)` for integer `x` and positive integer `b`. -/
def mathCeilDiv (x b : Int) : Int := -((-x) / b)

/-- `tick`: `totalElapsed = Math.floor(totalNowMs / 1000)` where
`totalNowMs = totalAccumulated + (now - workoutStartedAt)`. -/
def tickTotalElapsed (s : TimingState) (now : Int) : Int :=
  (s.totalAccumulatedMs + (now - s.workoutStartedAtMs)) / 1000

/-- `tick`: `remainingCeil = Math.ceil(remainingMs / 1000)` where
`remainingMs = Math.max(0, stepDurationMs - stepElapsedMs)`. -/
def tickStepRemaining (s : TimingState) (now : Int) : Int :=
  let stepElapsedMs := s.stepAccumulatedMs + (now - s.stepStartedAtMs)
  let stepDurationMs := s.stepOriginalDurationSec * 1000
  let remainingMs := max 0 (stepDurationMs - stepElapsedMs)
  mathCeilDiv remainingMs 1000

/-! ## Session persistence (workoutSessionStorage.ts) -/

inductive PersistedSessionStatus where
  | RUNNING | PAUSED
deriving DecidableEq, Repr

/-- `PersistedWorkoutSession` from workoutSessionStorage.ts. -/
structure PersistedWorkoutSession where
  sessionId : String
  status : PersistedSessionStatus
  currentStepIndex : Int
  skipWarmup : Bool
  stepsSignature : String
  workoutStartedAtMs : Int
  totalAccumulatedMs : Int
  stepStartedAtMs : Int
  stepOriginalDurationSec : Int
  stepAccumulatedMs : Int
  updatedAtMs : Int
deriving DecidableEq, Repr

def MAX_SESSION_AGE_MS : Int := 4 * 60 * 60 * 1000

/-- `isSessionStale(updatedAtMs, maxAgeMs)`; the `Date.now()` read is the
explicit `nowMs` argument. -/
def isSessionStale (updatedAtMs : Int) (maxAgeMs : Int) (nowMs : Int) : Bool :=
  nowMs - updatedAtMs > maxAgeMs

/-- A JSON primitive value, as produced by `JSON.parse` for the fields the
storage layer reads. -/
inductive JVal where
  | jnull
  | jbool (b : Bool)
  | jnum (n : Int)
  | jstr (s : String)
deriving DecidableEq, Repr

/-- The result of `JSON.parse(stored) as PersistedWorkoutSession`: each field
of the expected shape is either absent (`none`) or some JSON value of any
type.  A parse result that is not an object has every field absent. -/
structure RawSession where
  sessionId : Option JVal
  status : Option JVal
  currentStepIndex : Option JVal
  skipWarmup : Option JVal
  stepsSignature : Option JVal
  workoutStartedAtMs : Option JVal
  totalAccumulatedMs : Option JVal
  stepStartedAtMs : Option JVal
  stepOriginalDurationSec : Option JVal
  stepAccumulatedMs : Option JVal
  updatedAtMs : Option JVal
deriving DecidableEq, Repr

/-- The string stored under a session's key: either text that is not valid
JSON (or `""`, which the `!stored` guard also treats as absent-like), or a
successfully parsed value. -/
inductive StoredBlob where
  | malformed
  | json (r : RawSession)
deriving DecidableEq, Repr

/-- JavaScript truthiness of a possibly-absent field (`!x` negated). -/
def jsTruthy : Option JVal → Bool
  | none => false
  | some .jnull => false
  | some (.jbool b) => b
  | some (.jnum n) => n != 0
  | some (.jstr s) => s != ""

/-- `typeof x === "number"` -/
def isNumberField : Option JVal → Bool
  | some (.jnum _) => true
  | _ => false

/-- `typeof x === "boolean"` -/
def isBooleanField : Option JVal → Bool
  | some (.jbool _) => true
  | _ => false

/-- Numeric value of a field known to be a number (0 otherwise, unused). -/
def numVal : Option JVal → Int
  | some (.jnum n) => n
  | _ => 0

/-- `loadWorkoutSession(sessionId)`, as a function of the blob currently
stored under the session's key and of `Date.now()`.  Returns the loaded
record (or `none`) together with the blob left in storage (`none` once
`clearWorkoutSession` removed it).  `JSON.parse` throwing on malformed input
is caught by the surrounding `try`, which returns `null` without clearing. -/
def loadWorkoutSession (stored : Option StoredBlob) (nowMs : Int) :
    Option RawSession × Option StoredBlob :=
  match stored with
  | none => (none, none)
  | some .malformed => (none, some .malformed)
  | some (.json parsed) =>
      if !jsTruthy parsed.sessionId
          || !jsTruthy parsed.status
          || !isNumberField parsed.currentStepIndex
          || !isBooleanField parsed.skipWarmup
          || !jsTruthy parsed.stepsSignature
          || !isNumberField parsed.workoutStartedAtMs
          || !isNumberField parsed.updatedAtMs then
        (none, none)
      else if isSessionStale (numVal parsed.updatedAtMs) MAX_SESSION_AGE_MS nowMs then
        (none, none)
      else
        (some parsed, some (.json parsed))

def statusString : PersistedSessionStatus → String
  | .RUNNING => "RUNNING"
  | .PAUSED => "PAUSED"

/-- `JSON.stringify` followed by `JSON.parse` of a well-typed
`PersistedWorkoutSession`: every field is present with its primitive value. -/
def toRaw (s : PersistedWorkoutSession) : RawSession :=
  { sessionId := some (.jstr s.sessionId)
    status := some (.jstr (statusString s.status))
    currentStepIndex := some (.jnum s.currentStepIndex)
    skipWarmup := some (.jbool s.skipWarmup)
    stepsSignature := some (.jstr s.stepsSignature)
    workoutStartedAtMs := some (.jnum s.workoutStartedAtMs)
    totalAccumulatedMs := some (.jnum s.totalAccumulatedMs)
    stepStartedAtMs := some (.jnum s.stepStartedAtMs)
    stepOriginalDurationSec := some (.jnum s.stepOriginalDurationSec)
    stepAccumulatedMs := some (.jnum s.stepAccumulatedMs)
    updatedAtMs := some (.jnum s.updatedAtMs) }

/-- `saveWorkoutSession(sessionId, data)`: stamps `updatedAtMs = Date.now()`
and stores the serialized record. -/
def saveWorkoutSession (data : PersistedWorkoutSession) (nowMs : Int) :
    Option StoredBlob :=
  some (.json (toRaw { data with updatedAtMs := nowMs }))

/-- `calculateStepRemaining(session, nowMs)`. -/
def calculateStepRemaining (session : PersistedWorkoutSession) (nowMs : Int) :
    Int :=
  let stepDurationMs := session.stepOriginalDurationSec * 1000
  match session.status with
  | .PAUSED =>
      max 0 (mathCeilDiv (stepDurationMs - session.stepAccumulatedMs) 1000)
  | .RUNNING =>
      let currentStepElapsedMs :=
        session.stepAccumulatedMs + (nowMs - session.stepStartedAtMs)
      max 0 (mathCeilDiv (stepDurationMs - currentStepElapsedMs) 1000)

/-- `calculateTotalElapsed(session, nowMs)`. -/
def calculateTotalElapsed (session : PersistedWorkoutSession) (nowMs : Int) :
    Int :=
  match session.status with
  | .PAUSED => session.totalAccumulatedMs / 1000
  | .RUNNING =>
      let currentRunMs := nowMs - session.workoutStartedAtMs
      (session.totalAccumulatedMs + currentRunMs) / 1000

/-! ## Finalization label (handleFinish in WorkoutPlayer.tsx) -/

/-- `str.split("_")` on the character list: `"".split("_") = [""]`,
separators at the ends produce empty words. -/
def splitUnderscore : List Char → List (List Char)
  | [] => [[]]
  | c :: rest =>
      let r := splitUnderscore rest
      if c = '_' then [] :: r
      else
        match r with
        | [] => [[c]]
        | w :: ws => (c :: w) :: ws

/-- `words.join(" ")`. -/
def joinWithSpace : List String → String
  | [] => ""
  | [w] => w
  | w :: rest => w ++ " " ++ joinWithSpace rest

/-- `dayKey.split("_").map(w => w.charAt(0).toUpperCase() + w.slice(1)).join(" ")`
(`toUpperCase` modelled as ASCII upper-casing; for an empty word,
`charAt(0)` is `""` and the word stays empty). -/
def formatDayKey (dayKey : String) : String :=
  joinWithSpace
    ((splitUnderscore dayKey.data).map (fun w =>
      match w with
      | [] => ""
      | c :: rest => String.mk (c.toUpper :: rest)))

/-- JavaScript truthiness of an optional string prop. -/
def strTruthy : Option String → Bool
  | none => false
  | some s => s != ""

/-- `generateLabel()` from `handleFinish`, as a function of the component
props it reads. -/
def generateLabel (source : String) (programKey dayKey : Option String)
    (routineTitle : String) : String :=
  if source = "custom" then "Custom · " ++ routineTitle
  else if strTruthy programKey ∧ strTruthy dayKey then
    (programKey.getD "") ++ " · " ++ formatDayKey (dayKey.getD "")
  else if strTruthy programKey then programKey.getD ""
  else if routineTitle = "" then "Entrenamiento" else routineTitle

/-! ## Claim-side predicates -/

/-- Claim C3's notion of a fully valid record: every field of
`PersistedWorkoutSession` present and correctly typed. -/
def isFullyValid (r : RawSession) : Bool :=
  (match r.sessionId with | some (.jstr _) => true | _ => false)
    && (r.status = some (.jstr "RUNNING") || r.status = some (.jstr "PAUSED"))
    && isNumberField r.currentStepIndex
    && isBooleanField r.skipWarmup
    && (match r.stepsSignature with | some (.jstr _) => true | _ => false)
    && isNumberField r.workoutStartedAtMs
    && isNumberField r.totalAccumulatedMs
    && isNumberField r.stepStartedAtMs
    && isNumberField r.stepOriginalDurationSec
    && isNumberField r.stepAccumulatedMs
    && isNumberField r.updatedAtMs

/-- The seven field checks `loadWorkoutSession` actually performs. -/
def checkedValid (r : RawSession) : Bool :=
  jsTruthy r.sessionId
    && jsTruthy r.status
    && isNumberField r.currentStepIndex
    && isBooleanField r.skipWarmup
    && jsTruthy r.stepsSignature
    && isNumberField r.workoutStartedAtMs
    && isNumberField r.updatedAtMs

/-- Claim C8's label rule, following the spec's words: program format whenever
program metadata is present, else the custom format, else the bare title. -/
def claimedLabel (source : String) (programKey dayKey : Option String)
    (routineTitle : String) : String :=
  if strTruthy programKey ∧ strTruthy dayKey then
    (programKey.getD "") ++ " · " ++ formatDayKey (dayKey.getD "")
  else if source = "custom" then "Custom · " ++ routineTitle
  else routineTitle

/-- The timing fields a `PersistedWorkoutSession` shares with the player's
timing refs (the mapping used by `persistCurrentState` and
`rehydrateFromPersisted`). -/
def toTimingState (s : PersistedWorkoutSession) : TimingState :=
  { workoutStartedAtMs := s.workoutStartedAtMs
    totalAccumulatedMs := s.totalAccumulatedMs
    stepStartedAtMs := s.stepStartedAtMs
    stepOriginalDurationSec := s.stepOriginalDurationSec
    stepAccumulatedMs := s.stepAccumulatedMs }

/-! ## C4: beep guard -/

/-- After any `beepOnce(key, _)`, the guard holds `key`. -/
theorem beepOnce_snd (k s : String) : (beepOnce k s).2 = k := by
  unfold beepOnce
  split
  · simp [*]
  · rfl

theorem noAdjacentRefire_run (ks : List String) (s : String) :
    noAdjacentRefire (runBeepOnce ks s).1 = true := by
  induction ks generalizing s with
  | nil => rfl
  | cons k ks ih =>
      cases ks with
      | nil => simp [runBeepOnce, noAdjacentRefire]
      | cons k2 ks2 =>
          have htail := ih (beepOnce k s).2
          simp only [runBeepOnce, noAdjacentRefire, Bool.and_eq_true] at htail ⊢
          refine ⟨?_, htail⟩
          by_cases hk : k = k2
          · subst hk
            rw [beepOnce_snd]
            simp [beepOnce]
          · simp [hk]

/-- C4 counterexample: from a fresh guard, the call sequence
`beepOnce "a"`, `beepOnce "b"`, `beepOnce "a"` invokes the effect of key
`"a"` twice, so the effect is not invoked at most once per unique key. -/
theorem beepOnce_per_key_cex :
    (runBeepOnce ["a", "b", "a"] resetBeepGuard).1 =
      [("a", true), ("b", true), ("a", true)]
    ∧ ¬ fireCount (runBeepOnce ["a", "b", "a"] resetBeepGuard).1 "a" ≤ 1 := by
  decide

/-- C4 amended: the guard only deduplicates consecutive repeats of the same
key.  In any call sequence, a call whose key equals the immediately preceding
call's key never invokes its effect (in particular an immediate repeat of
`beepOnce k` is suppressed), and after `resetBeepGuard` any non-empty key
fires again. -/
theorem beepOnce_consecutive_dedup (ks : List String) (s k : String) :
    noAdjacentRefire (runBeepOnce ks s).1 = true
    ∧ (beepOnce k (beepOnce k s).2).1 = false
    ∧ (k ≠ "" → (beepOnce k resetBeepGuard).1 = true) := by
  refine ⟨noAdjacentRefire_run ks s, ?_, ?_⟩
  · rw [beepOnce_snd]
    simp [beepOnce]
  · intro hk
    simp [beepOnce, resetBeepGuard, hk]

/-- C4 witness: a non-empty key fires right after a guard reset. -/
theorem beepOnce_consecutive_dedup_witness :
    (beepOnce "transition-work-1" resetBeepGuard).1 = true :=
  (beepOnce_consecutive_dedup [] "" "transition-work-1").2.2 (by decide)

/-! ## C10: paused readings are clock independent -/

/-- C10: while a persisted session is PAUSED, `calculateStepRemaining` and
`calculateTotalElapsed` do not depend on the current clock value. -/
theorem paused_readings_clock_independent (s : PersistedWorkoutSession)
    (t1 t2 : Int) (h : s.status = .PAUSED) :
    calculateStepRemaining s t1 = calculateStepRemaining s t2
    ∧ calculateTotalElapsed s t1 = calculateTotalElapsed s t2 := by
  constructor <;> simp [calculateStepRemaining, calculateTotalElapsed, h]

/-- A concrete paused session used by witnesses. -/
def pausedSessionExample : PersistedWorkoutSession :=
  { sessionId := "s1"
    status := .PAUSED
    currentStepIndex := 2
    skipWarmup := false
    stepsSignature := "warm_1_b1"
    workoutStartedAtMs := 1000
    totalAccumulatedMs := 42000
    stepStartedAtMs := 2000
    stepOriginalDurationSec := 60
    stepAccumulatedMs := 13000
    updatedAtMs := 50000 }

/-- C10 witness at a concrete paused session and two distant clock values. -/
theorem paused_readings_clock_independent_witness :
    calculateStepRemaining pausedSessionExample 0 =
        calculateStepRemaining pausedSessionExample 999999999
    ∧ calculateTotalElapsed pausedSessionExample 0 =
        calculateTotalElapsed pausedSessionExample 999999999 :=
  paused_readings_clock_independent pausedSessionExample 0 999999999 rfl

/-! ## C6: remaining time is a ceiling -/

/-- The claim's `stepElapsedMs`: `stepAccumulatedMs + (now - stepStartedAtMs)`
while RUNNING, `stepAccumulatedMs` while PAUSED. -/
def stepElapsedOf (s : PersistedWorkoutSession) (now : Int) : Int :=
  match s.status with
  | .RUNNING => s.stepAccumulatedMs + (now - s.stepStartedAtMs)
  | .PAUSED => s.stepAccumulatedMs

/-- C6: `calculateStepRemaining` equals
`ceil(max(0, dur*1000 - stepElapsedMs) / 1000)` where `stepElapsedMs` is
`stepAccumulatedMs + (now - stepStartedAtMs)` when RUNNING and
`stepAccumulatedMs` when PAUSED; it is positive whenever time remains; and
for RUNNING sessions it coincides with the tick loop's computation on the
corresponding timing refs. -/
theorem calculateStepRemaining_ceiling (s : PersistedWorkoutSession) (now : Int) :
    calculateStepRemaining s now =
      mathCeilDiv
        (max 0 (s.stepOriginalDurationSec * 1000 - stepElapsedOf s now)) 1000
    ∧ (stepElapsedOf s now < s.stepOriginalDurationSec * 1000 →
        0 < calculateStepRemaining s now)
    ∧ (s.status = .RUNNING →
        calculateStepRemaining s now = tickStepRemaining (toTimingState s) now) := by
  have key : ∀ x : Int, max 0 (mathCeilDiv x 1000) = mathCeilDiv (max 0 x) 1000 := by
    intro x
    unfold mathCeilDiv
    omega
  have pos : ∀ x : Int, 0 < x → 0 < mathCeilDiv (max 0 x) 1000 := by
    intro x hx
    unfold mathCeilDiv
    omega
  cases hst : s.status with
  | PAUSED =>
      refine ⟨?_, ?_, ?_⟩
      · simp only [calculateStepRemaining, stepElapsedOf, hst]
        exact key _
      · intro h
        simp only [calculateStepRemaining, stepElapsedOf, hst] at h ⊢
        rw [key _]
        exact pos _ (by omega)
      · intro h
        exact absurd h (by simp)
  | RUNNING =>
      refine ⟨?_, ?_, ?_⟩
      · simp only [calculateStepRemaining, stepElapsedOf, hst]
        exact key _
      · intro h
        simp only [calculateStepRemaining, stepElapsedOf, hst] at h ⊢
        rw [key _]
        exact pos _ (by omega)
      · intro _
        simp only [calculateStepRemaining, tickStepRemaining, toTimingState, hst]
        rw [key _]

/-- A concrete running session used by witnesses: 7.5 s into a 60 s step. -/
def runningSessionExample : PersistedWorkoutSession :=
  { sessionId := "s2"
    status := .RUNNING
    currentStepIndex := 1
    skipWarmup := true
    stepsSignature := "skip_1_b1"
    workoutStartedAtMs := 0
    totalAccumulatedMs := 0
    stepStartedAtMs := 0
    stepOriginalDurationSec := 60
    stepAccumulatedMs := 2500
    updatedAtMs := 0 }

/-- C6 witness: at `now = 5000` the running example has 52500 ms left, so the
remaining display is positive and agrees with the tick computation. -/
theorem calculateStepRemaining_ceiling_witness :
    (stepElapsedOf runningSessionExample 5000 <
        runningSessionExample.stepOriginalDurationSec * 1000
      → 0 < calculateStepRemaining runningSessionExample 5000)
    ∧ calculateStepRemaining runningSessionExample 5000 =
        tickStepRemaining (toTimingState runningSessionExample) 5000 :=
  ⟨(calculateStepRemaining_ceiling runningSessionExample 5000).2.1,
   (calculateStepRemaining_ceiling runningSessionExample 5000).2.2 rfl⟩

/-! ## C5: pause/resume time conservation -/

/-- C5: after start at `T`, pause at `T+t1`, resume at `T+t1+t2`, a tick at
`T+t1+t2+t3` reports `⌊(t1+t3)/1000⌋` seconds of total elapsed time — the
paused interval `t2` contributes nothing, and the report is within one second
of the exact `t1 + t3` milliseconds. -/
theorem pause_resume_conservation (T : Int) (t1 t2 t3 : Nat)
    (steps : List Step) (s0 : TimingState) :
    tickTotalElapsed
        (handleResume
          (handlePause (handleStart steps s0 T) (T + t1))
          (T + t1 + t2))
        (T + t1 + t2 + t3)
      = ((t1 + t3) / 1000 : Nat)
    ∧ (((t1 + t3) / 1000 : Nat) : Int) * 1000 ≤ (t1 : Int) + t3
    ∧ ((t1 : Int) + t3) < (((t1 + t3) / 1000 : Nat) : Int) * 1000 + 1000 := by
  refine ⟨?_, by omega, by omega⟩
  simp only [tickTotalElapsed, handleResume, handlePause, handleStart]
  omega

/-! ## C8: finalization label -/

/-- C8 counterexample: for a custom session that also carries program
metadata, `generateLabel` picks the custom format, while the claimed rule
picks the program format. -/
theorem generateLabel_cex :
    generateLabel "custom" (some "PPL") (some "push_day") "Mi rutina"
      = "Custom · Mi rutina"
    ∧ claimedLabel "custom" (some "PPL") (some "push_day") "Mi rutina"
      = "PPL · Push Day"
    ∧ generateLabel "custom" (some "PPL") (some "push_day") "Mi rutina"
      ≠ claimedLabel "custom" (some "PPL") (some "push_day") "Mi rutina" := by
  refine ⟨rfl, rfl, ?_⟩
  decide

/-- C8 amended: the `source === "custom"` check comes first, so a custom
session is always labelled `Custom · <title>`; otherwise the program format
applies when both `programKey` and `dayKey` are present and non-empty; a
bare non-empty `programKey` without `dayKey` yields just the program key; and
with no program key the label is the routine title, or `Entrenamiento` when
that is empty. -/
theorem generateLabel_cases (source : String) (pk dk : Option String)
    (t : String) :
    (source = "custom" → generateLabel source pk dk t = "Custom · " ++ t)
    ∧ (source ≠ "custom" → ∀ p d, pk = some p → p ≠ "" → dk = some d → d ≠ "" →
        generateLabel source pk dk t = p ++ " · " ++ formatDayKey d)
    ∧ (source ≠ "custom" → strTruthy pk = true → strTruthy dk = false →
        generateLabel source pk dk t = pk.getD "")
    ∧ (source ≠ "custom" → strTruthy pk = false → t ≠ "" →
        generateLabel source pk dk t = t)
    ∧ (source ≠ "custom" → strTruthy pk = false → t = "" →
        generateLabel source pk dk t = "Entrenamiento") := by
  refine ⟨?_, ?_, ?_, ?_, ?_⟩
  · intro h
    simp [generateLabel, h]
  · intro h p d hp hpne hd hdne
    subst hp
    subst hd
    simp [generateLabel, h, strTruthy, hpne, hdne]
  · intro h h1 h2
    simp [generateLabel, h, h1, h2]
  · intro h h1 h2
    simp [generateLabel, h, h1, h2]
  · intro h h1 h2
    simp [generateLabel, h, h1, h2]

/-- C8 witness: the custom branch at concrete inputs. -/
theorem generateLabel_cases_witness :
    generateLabel "custom" none none "Fuerza total" = "Custom · Fuerza total" :=
  (generateLabel_cases "custom" none none "Fuerza total").1 rfl

/-! ## C3: load validation and failure handling -/

/-- A stored record that passes every check `loadWorkoutSession` performs but
is missing the four timing fields the validation never looks at. -/
def rawMissingTiming : RawSession :=
  { sessionId := some (.jstr "s1")
    status := some (.jstr "RUNNING")
    currentStepIndex := some (.jnum 0)
    skipWarmup := some (.jbool false)
    stepsSignature := some (.jstr "warm_1_b1")
    workoutStartedAtMs := some (.jnum 0)
    totalAccumulatedMs := none
    stepStartedAtMs := none
    stepOriginalDurationSec := none
    stepAccumulatedMs := none
    updatedAtMs := some (.jnum 0) }

/-- C3 counterexample: a record missing `totalAccumulatedMs`,
`stepStartedAtMs`, `stepOriginalDurationSec` and `stepAccumulatedMs` is
returned as-is (only partially valid), and malformed JSON is answered with
`null` while the stored record is left in place rather than deleted. -/
theorem loadWorkoutSession_uniformity_cex :
    loadWorkoutSession (some (.json rawMissingTiming)) 0
      = (some rawMissingTiming, some (.json rawMissingTiming))
    ∧ isFullyValid rawMissingTiming = false
    ∧ loadWorkoutSession (some .malformed) 0 = (none, some .malformed) := by
  decide

/-- C3 amended: `loadWorkoutSession` deletes the record and returns null on a
missing or mistyped field among the seven it checks (`sessionId`, `status`,
`currentStepIndex`, `skipWarmup`, `stepsSignature`, `workoutStartedAtMs`,
`updatedAtMs`) and on staleness; on malformed JSON it returns null but leaves
the record in place; and any returned record satisfies exactly those seven
checks and is fresh — the four remaining timing fields are not validated. -/
theorem loadWorkoutSession_failure_modes (stored : Option StoredBlob)
    (now : Int) :
    (∀ r, (loadWorkoutSession stored now).1 = some r →
        stored = some (.json r)
        ∧ checkedValid r = true
        ∧ isSessionStale (numVal r.updatedAtMs) MAX_SESSION_AGE_MS now = false
        ∧ (loadWorkoutSession stored now).2 = some (.json r))
    ∧ (∀ r, stored = some (.json r) → checkedValid r = false →
        loadWorkoutSession stored now = (none, none))
    ∧ (∀ r, stored = some (.json r) → checkedValid r = true →
        isSessionStale (numVal r.updatedAtMs) MAX_SESSION_AGE_MS now = true →
        loadWorkoutSession stored now = (none, none))
    ∧ (stored = some .malformed →
        loadWorkoutSession stored now = (none, some .malformed)) := by
  match stored with
  | none =>
      refine ⟨?_, ?_, ?_, ?_⟩
      · intro r h
        simp [loadWorkoutSession] at h
      · intro r h
        cases h
      · intro r h
        cases h
      · intro h
        cases h
  | some .malformed =>
      refine ⟨?_, ?_, ?_, ?_⟩
      · intro r h
        simp [loadWorkoutSession] at h
      · intro r h
        cases h
      · intro r h
        cases h
      · intro _
        rfl
  | some (.json r0) =>
      have hcond : (!jsTruthy r0.sessionId
            || !jsTruthy r0.status
            || !isNumberField r0.currentStepIndex
            || !isBooleanField r0.skipWarmup
            || !jsTruthy r0.stepsSignature
            || !isNumberField r0.workoutStartedAtMs
            || !isNumberField r0.updatedAtMs) = !checkedValid r0 := by
        simp [checkedValid]
      refine ⟨?_, ?_, ?_, ?_⟩
      · intro r h
        simp only [loadWorkoutSession, hcond] at h
        by_cases hv : checkedValid r0
        · simp only [hv, Bool.not_true, Bool.false_eq_true, if_false] at h
          by_cases hs :
              isSessionStale (numVal r0.updatedAtMs) MAX_SESSION_AGE_MS now
          · simp [hs] at h
          · simp only [hs, Bool.false_eq_true, if_false] at h
            cases h
            refine ⟨rfl, hv, by simpa using hs, ?_⟩
            simp only [loadWorkoutSession, hcond, hv, Bool.not_true,
              Bool.false_eq_true, if_false]
            simp [hs]
        · simp [hv] at h
      · intro r h hv
        cases h
        simp [loadWorkoutSession, hcond, hv]
      · intro r h hv hs
        cases h
        simp [loadWorkoutSession, hcond, hv, hs]
      · intro h
        cases h

/-- C3 witness: instances of the amended behaviour — malformed JSON is
answered with null and kept, and a record failing the checks is deleted. -/
theorem loadWorkoutSession_failure_modes_witness :
    loadWorkoutSession (some .malformed) 7 = (none, some .malformed)
    ∧ loadWorkoutSession
        (some (.json { rawMissingTiming with sessionId := none })) 7
      = (none, none) :=
  ⟨(loadWorkoutSession_failure_modes (some .malformed) 7).2.2.2 rfl,
   (loadWorkoutSession_failure_modes
      (some (.json { rawMissingTiming with sessionId := none })) 7).2.1
      { rawMissingTiming with sessionId := none } rfl (by decide)⟩

/-! ## C7: save/load round trip -/

/-- C7: loading right after saving returns the snapshot unchanged in every
field except `updatedAtMs`, which `saveWorkoutSession` restamps with the
write time, provided the snapshot's string identifiers are non-empty and
less than the 4-hour staleness window has elapsed. -/
theorem save_load_roundtrip (snap : PersistedWorkoutSession)
    (tSave tLoad : Int)
    (h1 : snap.sessionId ≠ "") (h2 : snap.stepsSignature ≠ "")
    (h3 : tLoad - tSave < MAX_SESSION_AGE_MS) :
    loadWorkoutSession (saveWorkoutSession snap tSave) tLoad =
      (some (toRaw { snap with updatedAtMs := tSave }),
       some (.json (toRaw { snap with updatedAtMs := tSave }))) := by
  have hstatus : statusString snap.status ≠ "" := by
    cases snap.status <;> simp [statusString]
  simp only [MAX_SESSION_AGE_MS] at h3
  simp [loadWorkoutSession, saveWorkoutSession, toRaw, jsTruthy, numVal,
    isNumberField, isBooleanField, h1, h2, hstatus,
    isSessionStale, MAX_SESSION_AGE_MS]
  omega

/-- C7 witness: round trip at a concrete snapshot, one hour apart. -/
theorem save_load_roundtrip_witness :
    loadWorkoutSession (saveWorkoutSession pausedSessionExample 1000000) 4600000
      = (some (toRaw { pausedSessionExample with updatedAtMs := 1000000 }),
         some (.json (toRaw { pausedSessionExample with updatedAtMs := 1000000 }))) :=
  save_load_roundtrip pausedSessionExample 1000000 4600000
    (by decide) (by decide) (by decide)

/-! ## Step-sequence predicates for C2 and C9 -/

/-- An adjacent pair is acceptable unless the second step is a COUNTDOWN not
immediately preceded by a REST of positive duration. -/
def pairOk (a b : Step) : Bool :=
  if b.kind = .COUNTDOWN then
    decide (a.kind = .REST) && decide (0 < a.durationSec)
  else true

/-- Every COUNTDOWN that is not the first step of the sequence is immediately
preceded by a REST step of positive duration. -/
def cdPrecededOk : List Step → Bool
  | [] => true
  | [_] => true
  | a :: b :: rest => pairOk a b && cdPrecededOk (b :: rest)

/-- The sequence does not begin with a COUNTDOWN step. -/
def noCdStart (l : List Step) : Bool :=
  match l.head? with
  | some s => decide (s.kind ≠ .COUNTDOWN)
  | none => true

/-- Number of COUNTDOWN steps in a sequence. -/
def countCD : List Step → Nat
  | [] => 0
  | s :: rest => (if s.kind = .COUNTDOWN then 1 else 0) + countCD rest

theorem reindexFrom_cons (i : Int) (s : Step) (l : List Step) :
    reindexFrom i (s :: l) = { s with stepIndex := i } :: reindexFrom (i + 1) l :=
  rfl

theorem head?_reindexFrom (i : Int) (l : List Step) :
    (reindexFrom i l).head?.map (fun s => (s.kind, s.durationSec))
      = l.head?.map (fun s => (s.kind, s.durationSec)) := by
  cases l <;> rfl

theorem getLast?_kind_reindexFrom (i : Int) (l : List Step) :
    (reindexFrom i l).getLast?.map Step.kind = l.getLast?.map Step.kind := by
  induction l generalizing i with
  | nil => rfl
  | cons s rest ih =>
      cases rest with
      | nil => rfl
      | cons s2 t =>
          rw [reindexFrom_cons, reindexFrom_cons, List.getLast?_cons_cons,
            ← reindexFrom_cons, ih, List.getLast?_cons_cons]

theorem countCD_reindexFrom (i : Int) (l : List Step) :
    countCD (reindexFrom i l) = countCD l := by
  induction l generalizing i with
  | nil => rfl
  | cons s rest ih =>
      rw [reindexFrom_cons]
      show (if s.kind = .COUNTDOWN then 1 else 0) + countCD (reindexFrom (i + 1) rest)
          = (if s.kind = .COUNTDOWN then 1 else 0) + countCD rest
      rw [ih]

theorem cdPrecededOk_reindexFrom (i : Int) (l : List Step) :
    cdPrecededOk (reindexFrom i l) = cdPrecededOk l := by
  induction l generalizing i with
  | nil => rfl
  | cons s rest ih =>
      cases rest with
      | nil => rfl
      | cons s2 t =>
          rw [reindexFrom_cons, reindexFrom_cons]
          show (pairOk s s2 && cdPrecededOk (reindexFrom (i + 1) (s2 :: t)))
              = (pairOk s s2 && cdPrecededOk (s2 :: t))
          rw [ih]

theorem countCD_append (l1 l2 : List Step) :
    countCD (l1 ++ l2) = countCD l1 + countCD l2 := by
  induction l1 with
  | nil => simp [countCD]
  | cons s t ih =>
      show (if s.kind = .COUNTDOWN then 1 else 0) + countCD (t ++ l2)
          = (if s.kind = .COUNTDOWN then 1 else 0) + countCD t + countCD l2
      rw [ih]
      omega

theorem noCdStart_append (l1 l2 : List Step) (h1 : noCdStart l1 = true)
    (h2 : noCdStart l2 = true) : noCdStart (l1 ++ l2) = true := by
  cases l1 with
  | nil => simpa using h2
  | cons s t => simpa [noCdStart] using h1

theorem cdPrecededOk_append_of (l1 l2 : List Step)
    (h1 : cdPrecededOk l1 = true) (h2 : cdPrecededOk l2 = true)
    (h3 : noCdStart l2 = true) : cdPrecededOk (l1 ++ l2) = true := by
  induction l1 with
  | nil => simpa using h2
  | cons a t ih =>
      cases t with
      | nil =>
          cases l2 with
          | nil => rfl
          | cons b l2t =>
              show (pairOk a b && cdPrecededOk (b :: l2t)) = true
              have hb : b.kind ≠ .COUNTDOWN := by
                simpa [noCdStart] using h3
              simp [pairOk, hb, h2]
      | cons a2 t2 =>
          have h1' : pairOk a a2 = true ∧ cdPrecededOk (a2 :: t2) = true := by
            simpa [cdPrecededOk] using h1
          have hrec := ih h1'.2
          show (pairOk a a2 && cdPrecededOk ((a2 :: t2) ++ l2)) = true
          rw [List.cons_append] at hrec ⊢
          simp [h1'.1, hrec]

/-! ## Structure of the chunks emitted per set, per block -/

theorem perSetSteps_head (b : RoutineBlock) (setNum : Int)
    (next : Option RoutineBlock) :
    (perSetSteps b setNum next).head? = some (workStep b setNum) := by
  unfold perSetSteps
  simp

theorem noCdStart_perSetSteps (b : RoutineBlock) (setNum : Int)
    (next : Option RoutineBlock) :
    noCdStart (perSetSteps b setNum next) = true := by
  unfold noCdStart
  rw [perSetSteps_head]
  simp [workStep]

theorem cdPrecededOk_perSetSteps (b : RoutineBlock) (setNum : Int)
    (next : Option RoutineBlock) (hrest : 0 < blockRestSec b) :
    cdPrecededOk (perSetSteps b setNum next) = true := by
  unfold perSetSteps
  by_cases hl : setNum = blockSets b
  · cases next with
    | none => simp [hl, cdPrecededOk]
    | some nb =>
        simp only [hl]
        simp [hrest, cdPrecededOk, pairOk, restStep, workStep, countdownStep]
  · simp [hl, hrest, cdPrecededOk, pairOk, restStep, workStep]

theorem setLoopSteps_good (b : RoutineBlock) (next : Option RoutineBlock)
    (hrest : 0 < blockRestSec b) (n : Nat) (setNum : Int) :
    cdPrecededOk (setLoopSteps b next n setNum) = true
    ∧ noCdStart (setLoopSteps b next n setNum) = true := by
  induction n generalizing setNum with
  | zero => exact ⟨rfl, rfl⟩
  | succ m ih =>
      have hper := cdPrecededOk_perSetSteps b setNum next hrest
      have hhead := noCdStart_perSetSteps b setNum next
      have hrec := ih (setNum + 1)
      refine ⟨?_, ?_⟩
      · exact cdPrecededOk_append_of _ _ hper hrec.1 hrec.2
      · exact noCdStart_append _ _ hhead hrec.2

theorem blocksSteps_good (l : List RoutineBlock)
    (hrest : ∀ b ∈ l, 0 < blockRestSec b) :
    cdPrecededOk (blocksSteps l) = true ∧ noCdStart (blocksSteps l) = true := by
  induction l with
  | nil => exact ⟨rfl, rfl⟩
  | cons b rest ih =>
      have hb : 0 < blockRestSec b := hrest b (by simp)
      have hrec := ih (fun x hx => hrest x (by simp [hx]))
      have hchunk := setLoopSteps_good b rest.head? hb (blockSets b).toNat 1
      refine ⟨?_, ?_⟩
      · exact cdPrecededOk_append_of _ _ hchunk.1 hrec.1 hrec.2
      · exact noCdStart_append _ _ hchunk.2 hrec.2

theorem mem_of_mem_active {b : RoutineBlock} {blocks : List RoutineBlock}
    {skip : Bool} (h : b ∈ activeBlocksOf blocks skip) : b ∈ blocks := by
  unfold activeBlocksOf at h
  split at h
  · exact List.mem_of_mem_filter h
  · exact h

/-! ## COUNTDOWN counting (for C2) -/

theorem countCD_perSetSteps (b : RoutineBlock) (setNum : Int)
    (next : Option RoutineBlock) :
    countCD (perSetSteps b setNum next)
      = if setNum = blockSets b then
          (match next with | some _ => 1 | none => 0)
        else 0 := by
  unfold perSetSteps
  by_cases hl : setNum = blockSets b
  · cases next with
    | none => simp [hl, countCD, countCD_append, workStep]
    | some nb =>
        by_cases hr : blockRestSec b > 0 <;>
          simp [hl, hr, countCD, countCD_append, workStep, restStep,
            countdownStep]
  · by_cases hr : blockRestSec b > 0 <;>
      simp [hl, hr, countCD, countCD_append, workStep, restStep]

theorem countCD_setLoopSteps (b : RoutineBlock) (next : Option RoutineBlock)
    (n : Nat) (setNum : Int) (hn : 0 < n)
    (hinv : setNum + n = blockSets b + 1) :
    countCD (setLoopSteps b next n setNum)
      = (match next with | some _ => 1 | none => 0) := by
  induction n generalizing setNum with
  | zero => omega
  | succ m ih =>
      show countCD (perSetSteps b setNum next ++ setLoopSteps b next m (setNum + 1))
          = _
      rw [countCD_append, countCD_perSetSteps]
      by_cases hm : m = 0
      · subst hm
        have hlast : setNum = blockSets b := by omega
        simp [hlast, setLoopSteps, countCD]
      · have hnot : ¬ setNum = blockSets b := by omega
        rw [ih (setNum + 1) (by omega) (by omega)]
        simp [hnot]

theorem countCD_blocksSteps (l : List RoutineBlock)
    (hsets : ∀ b ∈ l, 1 ≤ blockSets b) (hne : l ≠ []) :
    countCD (blocksSteps l) = l.length - 1 := by
  induction l with
  | nil => exact absurd rfl hne
  | cons b rest ih =>
      have hb : 1 ≤ blockSets b := hsets b (by simp)
      have htoNat : ((blockSets b).toNat : Int) = blockSets b := by omega
      have hchunk :
          countCD (blockSteps b rest.head?)
            = (match rest.head? with | some _ => 1 | none => 0) := by
        unfold blockSteps
        exact countCD_setLoopSteps b rest.head? (blockSets b).toNat 1
          (by omega) (by omega)
      show countCD (blockSteps b rest.head? ++ blocksSteps rest) = _
      rw [countCD_append, hchunk]
      cases rest with
      | nil => simp [blocksSteps, countCD]
      | cons b2 rest2 =>
          rw [ih (fun x hx => hsets x (by simp [hx])) (by simp)]
          simp
          omega

/-! ## Last emitted step of the final block (for C9) -/

theorem getLast?_kind_setLoopSteps_last (b : RoutineBlock) (n : Nat)
    (setNum : Int) (hn : 0 < n) (hinv : setNum + n = blockSets b + 1) :
    (setLoopSteps b none n setNum).getLast?.map Step.kind = some .WORK := by
  induction n generalizing setNum with
  | zero => omega
  | succ m ih =>
      show ((perSetSteps b setNum none
          ++ setLoopSteps b none m (setNum + 1)).getLast?.map Step.kind) = _
      by_cases hm : m = 0
      · subst hm
        have hlast : setNum = blockSets b := by omega
        unfold perSetSteps
        simp [hlast, setLoopSteps, workStep]
      · have hrec := ih (setNum + 1) (by omega) (by omega)
        rw [List.getLast?_append]
        cases h2 : (setLoopSteps b none m (setNum + 1)).getLast? with
        | none => rw [h2] at hrec; cases hrec
        | some x =>
            rw [h2] at hrec
            simp only [Option.or_some]
            exact hrec

theorem getLast?_kind_blocksSteps (l : List RoutineBlock)
    (hsets : ∀ b ∈ l, 1 ≤ blockSets b) (hne : l ≠ []) :
    (blocksSteps l).getLast?.map Step.kind = some .WORK := by
  induction l with
  | nil => exact absurd rfl hne
  | cons b rest ih =>
      show ((blockSteps b rest.head? ++ blocksSteps rest).getLast?.map Step.kind)
          = _
      cases rest with
      | nil =>
          have hb : 1 ≤ blockSets b := hsets b (by simp)
          have hnil : blocksSteps ([] : List RoutineBlock) = [] := rfl
          simp only [List.head?_nil]
          rw [hnil, List.append_nil]
          unfold blockSteps
          exact getLast?_kind_setLoopSteps_last b (blockSets b).toNat 1
            (by omega) (by omega)
      | cons b2 rest2 =>
          have hrec := ih (fun x hx => hsets x (by simp [hx])) (by simp)
          rw [List.getLast?_append]
          cases h2 : (blocksSteps (b2 :: rest2)).getLast? with
          | none => rw [h2] at hrec; cases hrec
          | some x =>
              rw [h2] at hrec
              simp only [Option.or_some]
              exact hrec

theorem cdPrecededOk_cons_of (s : Step) (l : List Step)
    (h1 : cdPrecededOk l = true) (h2 : noCdStart l = true) :
    cdPrecededOk (s :: l) = true := by
  cases l with
  | nil => rfl
  | cons x xs =>
      have hx : x.kind ≠ .COUNTDOWN := by simpa [noCdStart] using h2
      show (pairOk s x && cdPrecededOk (x :: xs)) = true
      simp [pairOk, hx, h1]

/-! ## C9: first and last steps of `buildSteps` -/

/-- A block whose `sets` value is negative: the set loop never runs. -/
def negSetsBlock : RoutineBlock :=
  { id := "n1"
    order_index := 0
    block_type := .STANDARD
    exercise_id := none
    sets := some (-1)
    reps := some 10
    seconds_per_rep := none
    work_seconds := none
    rest_seconds := some 60
    exercise_name := none }

/-- C9 counterexample: with a single block whose `sets` is `-1` the loop
`for (setNum = 1; setNum <= sets; ...)` never runs, so `buildSteps` returns
just the initial COUNTDOWN — a non-empty sequence whose last step is not a
WORK step. -/
theorem buildSteps_last_step_cex :
    buildSteps [negSetsBlock] false ≠ []
    ∧ (buildSteps [negSetsBlock] false).getLast?.map Step.kind
        = some .COUNTDOWN
    ∧ (buildSteps [negSetsBlock] false).getLast?.map Step.kind
        ≠ some .WORK := by
  refine ⟨by decide, by decide, by decide⟩

/-- C9 amended: whenever `buildSteps` returns a non-empty sequence its first
step is a COUNTDOWN of 3 seconds; and when additionally every block's
effective set count `sets || 1` is at least 1 (true for every non-negative
or absent `sets` value), the last step is a WORK step. -/
theorem buildSteps_first_last (blocks : List RoutineBlock) (skip : Bool) :
    (buildSteps blocks skip ≠ [] →
        (buildSteps blocks skip).head?.map (fun s => (s.kind, s.durationSec))
          = some (.COUNTDOWN, 3))
    ∧ ((∀ b ∈ blocks, 1 ≤ blockSets b) → buildSteps blocks skip ≠ [] →
        (buildSteps blocks skip).getLast?.map Step.kind = some .WORK) := by
  cases hact : activeBlocksOf blocks skip with
  | nil =>
      have hbuild : buildSteps blocks skip = [] := by
        unfold buildSteps
        rw [hact]
      exact ⟨fun h => absurd hbuild h, fun _ h => absurd hbuild h⟩
  | cons b bs =>
      have hbuild : buildSteps blocks skip
          = reindexFrom 0 (countdownStep b :: blocksSteps (b :: bs)) := by
        unfold buildSteps
        rw [hact]
      constructor
      · intro _
        rw [hbuild, head?_reindexFrom]
        simp [countdownStep, COUNTDOWN_BETWEEN_EXERCISES]
      · intro hsets _
        have hsets' : ∀ x ∈ b :: bs, 1 ≤ blockSets x := by
          intro x hx
          exact hsets x (mem_of_mem_active (hact ▸ hx))
        have hlast := getLast?_kind_blocksSteps (b :: bs) hsets' (by simp)
        rw [hbuild, getLast?_kind_reindexFrom]
        show (( [countdownStep b] ++ blocksSteps (b :: bs)).getLast?.map Step.kind) = _
        rw [List.getLast?_append]
        cases h2 : (blocksSteps (b :: bs)).getLast? with
        | none => rw [h2] at hlast; cases hlast
        | some x =>
            rw [h2] at hlast
            simp only [Option.or_some]
            exact hlast

/-- C9 witness: the concrete scenario routine has a non-empty step sequence
starting with COUNTDOWN(3) and ending with a WORK step. -/
theorem buildSteps_first_last_witness :
    (buildSteps [scenarioBlock] false).head?.map
        (fun s => (s.kind, s.durationSec)) = some (.COUNTDOWN, 3)
    ∧ (buildSteps [scenarioBlock] false).getLast?.map Step.kind = some .WORK :=
  ⟨(buildSteps_first_last [scenarioBlock] false).1 (by decide),
   (buildSteps_first_last [scenarioBlock] false).2 (by decide) (by decide)⟩

/-! ## C2: COUNTDOWN insertion before subsequent blocks -/

/-- First block of the C2 counterexample: one set, fixed 10 s work, negative
rest value (`-1` is truthy, so the `|| 60` default does not replace it). -/
def negRestBlock : RoutineBlock :=
  { id := "a"
    order_index := 0
    block_type := .STANDARD
    exercise_id := none
    sets := some 1
    reps := none
    seconds_per_rep := none
    work_seconds := some 10
    rest_seconds := some (-1)
    exercise_name := none }

/-- Second block of the C2 counterexample. -/
def secondBlock : RoutineBlock :=
  { id := "b"
    order_index := 1
    block_type := .STANDARD
    exercise_id := none
    sets := some 1
    reps := none
    seconds_per_rep := none
    work_seconds := some 5
    rest_seconds := some 60
    exercise_name := none }

/-- C2 counterexample: the preceding block's rest value is `-1`, not greater
than 0, yet a COUNTDOWN for the second block is still inserted — and no REST
step precedes it (the COUNTDOWN directly follows a WORK step). -/
theorem buildSteps_countdown_gating_cex :
    (buildSteps [negRestBlock, secondBlock] false).map
        (fun s => (s.kind, s.durationSec))
      = [(.COUNTDOWN, 3), (.WORK, 10), (.COUNTDOWN, 3), (.WORK, 5)]
    ∧ ¬ blockRestSec negRestBlock > 0
    ∧ cdPrecededOk (buildSteps [negRestBlock, secondBlock] false) = false := by
  refine ⟨by decide, by decide, by decide⟩

/-- C2 amended: the COUNTDOWN before a subsequent block's first set is
emitted unconditionally (whenever a next block exists and the preceding
block's set loop runs); the REST before it is what is conditional on the
rest value.  Hence, when every block's effective rest `rest_seconds || 60`
is positive (true for every non-negative or absent rest value), every
non-initial COUNTDOWN is immediately preceded by a REST of positive
duration, and — when every effective set count is at least 1 — exactly one
COUNTDOWN appears per active block. -/
theorem buildSteps_countdown_rest_pairing (blocks : List RoutineBlock)
    (skip : Bool) (hrest : ∀ b ∈ blocks, 0 < blockRestSec b) :
    cdPrecededOk (buildSteps blocks skip) = true
    ∧ ((∀ b ∈ blocks, 1 ≤ blockSets b) →
        countCD (buildSteps blocks skip)
          = (activeBlocksOf blocks skip).length) := by
  cases hact : activeBlocksOf blocks skip with
  | nil =>
      have hbuild : buildSteps blocks skip = [] := by
        unfold buildSteps
        rw [hact]
      rw [hbuild]
      exact ⟨rfl, fun _ => rfl⟩
  | cons b bs =>
      have hbuild : buildSteps blocks skip
          = reindexFrom 0 (countdownStep b :: blocksSteps (b :: bs)) := by
        unfold buildSteps
        rw [hact]
      have hrest' : ∀ x ∈ b :: bs, 0 < blockRestSec x := by
        intro x hx
        exact hrest x (mem_of_mem_active (hact ▸ hx))
      have hgood := blocksSteps_good (b :: bs) hrest'
      constructor
      · rw [hbuild, cdPrecededOk_reindexFrom]
        exact cdPrecededOk_cons_of _ _ hgood.1 hgood.2
      · intro hsets
        have hsets' : ∀ x ∈ b :: bs, 1 ≤ blockSets x := by
          intro x hx
          exact hsets x (mem_of_mem_active (hact ▸ hx))
        have hcount := countCD_blocksSteps (b :: bs) hsets' (by simp)
        rw [hbuild, countCD_reindexFrom]
        show (if (countdownStep b).kind = .COUNTDOWN then 1 else 0)
            + countCD (blocksSteps (b :: bs)) = (b :: bs).length
        rw [hcount]
        simp [countdownStep]
        omega

/-- C2 witness: for the concrete scenario routine (positive rest, one block)
the pairing property holds and there is exactly one COUNTDOWN. -/
theorem buildSteps_countdown_rest_pairing_witness :
    cdPrecededOk (buildSteps [scenarioBlock] false) = true
    ∧ countCD (buildSteps [scenarioBlock] false)
        = (activeBlocksOf [scenarioBlock] false).length :=
  ⟨(buildSteps_countdown_rest_pairing [scenarioBlock] false (by decide)).1,
   (buildSteps_countdown_rest_pairing [scenarioBlock] false (by decide)).2
     (by decide)⟩

end Forja
